import Mathlib

/-!
Verification of the AGU_Schedule delivery core: a shallow embedding of the
scheduler's dispatch utilities (`app/scheduler/utils/delivery.py`,
`app/scheduler/utils/logging.py`), the recipient selector
(`app/db/queries/users.py`), the digest and reminder jobs
(`app/scheduler/jobs/morning_message.py`, `app/scheduler/jobs/reminders.py`),
the message formatters (`app/bot/utils/formatters.py`) and the broadcast
ledger write (`app/admin/broadcast.py`), together with theorems settling the
specification claims about them.

Modelling conventions:
- a Python async call that may raise is a Lean function into `Except String`
  or, for a fire-and-forget send, a function whose `Option String` result is
  `some e` exactly when the call raised exception `e`;
- SQLite timestamps (`paused_until`, `datetime('now')`) are `Nat` under the
  usual order, standing for the lexicographically ordered datetime strings;
- wall-clock instants are minutes since the Unix epoch (UTC), and a timezone
  is its UTC offset in minutes.
-/

namespace AGU

/-- Outcome of one invocation of the provider send capability
(`bot.send_message`): normal completion, a `TelegramAPIError` (the transient
class the retry loop catches first), or any other exception. -/
inductive SendResult where
  | success
  | apiError (msg : String)
  | otherError (msg : String)
deriving DecidableEq

/-- The retry loop of `send_message_with_retry` (delivery.py lines 91-113),
entered at iteration `attempt` of `for attempt in range(max_retries + 1)`.
`send n` is the provider's response to the `n`-th invocation (0-based).
Returns `(sent, invocations)`: the boolean result of the Python function and
how many times the capability was invoked from this iteration on. -/
def sendRetryFrom (send : Nat → SendResult) (maxRetries attempt : Nat) : Bool × Nat :=
  match send attempt with
  | .success => (true, 1)
  | .apiError _ =>
    if _h : attempt < maxRetries then
      let res := sendRetryFrom send maxRetries (attempt + 1)
      (res.1, res.2 + 1)
    else
      (false, 1)
  | .otherError _ => (false, 1)
termination_by maxRetries - attempt
decreasing_by omega

/-- `send_message_with_retry` (delivery.py lines 68-113): run the retry loop
from attempt 0. -/
def send_message_with_retry (send : Nat → SendResult) (maxRetries : Nat) : Bool × Nat :=
  sendRetryFrom send maxRetries 0

/-- The batch partition produced by `for i in range(0, len(user_ids), batch_size)`
with `batch = user_ids[i:i + batch_size]` (delivery.py lines 46-47): successive
slices of size `b` in list order.  For `b = 0` the Python `range` raises
`ValueError`; the guard makes the Lean function total and every theorem
assumes `1 ≤ b`. -/
def batches (b : Nat) (l : List α) : List (List α) :=
  if b == 0 || l.isEmpty then []
  else l.take b :: batches b (l.drop b)
termination_by l.length
decreasing_by
  rename_i h
  simp only [Bool.or_eq_true, beq_iff_eq, List.isEmpty_iff, not_or] at h
  have hb : b ≠ 0 := h.1
  have : 0 < l.length := List.length_pos.mpr h.2
  simp only [List.length_drop]
  omega

/-- The loop body of `batch_send` (delivery.py lines 46-62) over the remaining
suffix `l` of `user_ids`.  `send u = none` means `message_func` for user `u`
settled normally, `send u = some e` means it raised `e` (collected by
`asyncio.gather(..., return_exceptions=True)`).  Returns
`(successful, errors, sleeps)` where `sleeps` counts executions of
`await asyncio.sleep(delay)`, guarded by `i + batch_size < len(user_ids)`,
i.e. by the remainder after this batch being nonempty. -/
def batchSendGo (send : Nat → Option String) (b : Nat) (l : List Nat) : Nat × Nat × Nat :=
  if b == 0 || l.isEmpty then (0, 0, 0)
  else
    let batch := l.take b
    let rest := l.drop b
    let res := batchSendGo send b rest
    ((batch.filter (fun u => (send u).isNone)).length + res.1,
     (batch.filter (fun u => (send u).isSome)).length + res.2.1,
     (if rest.isEmpty then 0 else 1) + res.2.2)
termination_by l.length
decreasing_by
  rename_i h
  simp only [Bool.or_eq_true, beq_iff_eq, List.isEmpty_iff, not_or] at h
  have hb : b ≠ 0 := h.1
  have : 0 < l.length := List.length_pos.mpr h.2
  simp only [List.length_drop]
  omega

/-- `batch_send` (delivery.py lines 16-65): process `user_ids` in batches of
`batch_size`, returning `(successful, errors, sleeps)`. -/
def batch_send (send : Nat → Option String) (user_ids : List Nat) (batch_size : Nat) :
    Nat × Nat × Nat :=
  batchSendGo send batch_size user_ids

/-- A row of the `users` table (app/db/models/user.py): the fields the
scheduler reads.  `paused_until` is the optional pause timestamp. -/
structure User where
  tg_id : Nat
  name : String
  course : Nat
  direction_id : Nat
  remind_before : Bool
  paused_until : Option Nat
deriving DecidableEq

/-- The row predicate of the `get_active_users` query (users.py lines 155-162):
`paused_until IS NULL OR paused_until < datetime('now')`. -/
def isActive (now : Nat) (u : User) : Bool :=
  match u.paused_until with
  | none => true
  | some t => decide (t < now)

/-- `get_active_users` (users.py lines 145-162): the rows of `users` satisfying
the pause predicate.  The query has no ORDER BY, so the stored row order is
returned unchanged. -/
def get_active_users (rows : List User) (now : Nat) : List User :=
  rows.filter (isActive now)

/-- A class row (app/db/models/pair.py): the fields read by the formatters. -/
structure Pair where
  title : String
  teacher : String
  room : String
  type : String
  extra_link : Option String
deriving DecidableEq

/-- One element of the result of `get_pairs_by_direction_and_day`:
`(pair, start_time, end_time)`. -/
abbrev PairRow := Pair × String × String

/-- `get_weekday_name_ru` (app/utils/timezone.py lines 85-104). -/
def get_weekday_name_ru (day_of_week : Nat) : String :=
  ["Понедельник", "Вторник", "Среда", "Четверг", "Пятница", "Суббота",
   "Воскресенье"].getD day_of_week ""

/-- `format_reminder_message` (app/bot/utils/formatters.py lines 65-95). -/
def format_reminder_message (p : Pair) (start_time end_time : String) : String :=
  let message := "\n⏰ <b>Напоминание!</b>\n\nЧерез 5 минут начинается пара:\n\n🕐 "
    ++ start_time ++ " - " ++ end_time ++ "\n📚 <b>" ++ p.title ++ "</b>\n👨‍🏫 "
    ++ p.teacher ++ "\n🏛 " ++ p.room ++ "\n"
  let message := match p.extra_link with
    | some link => message ++ "\n🔗 <a href=\x27" ++ link ++ "\x27>Перейти к занятию</a>"
    | none => message
  message.trim

/-- `format_schedule_message` (app/bot/utils/formatters.py lines 12-62).  The
empty-schedule branch returns without `.strip()`, the other branch strips. -/
def format_schedule_message (pairs : List PairRow) (day_of_week : Nat)
    (user_name : String) : String :=
  let weekday_name := get_weekday_name_ru day_of_week
  if pairs.isEmpty then
    "\n📅 <b>" ++ weekday_name ++ "</b>\n\nПривет, " ++ user_name
      ++ "! 👋\n\nСегодня у тебя нет пар. Отдыхай! 😊\n"
  else
    let message := "\n📅 <b>" ++ weekday_name ++ "</b>\n\nПривет, " ++ user_name
      ++ "! 👋\nВот твоё расписание на сегодня:\n\n"
    let message := pairs.foldl (fun m pr =>
      let m := m ++ "\n🕐 <b>" ++ pr.2.1 ++ " - " ++ pr.2.2 ++ "</b>\n📚 "
        ++ pr.1.title ++ "\n👨‍🏫 " ++ pr.1.teacher ++ "\n🏛 " ++ pr.1.room
        ++ "\n📝 " ++ pr.1.type ++ "\n"
      let m := match pr.1.extra_link with
        | some link => m ++ "🔗 <a href=\x27" ++ link ++ "\x27>Ссылка на занятие</a>\n"
        | none => m
      m ++ "\n") message
    (message ++ "Удачного дня! 📝").trim

/-- A row of `delivery_log` as written by the scheduler
(app/scheduler/utils/logging.py lines 31-37). -/
structure DeliveryRecord where
  user_id : Nat
  message_type : String
  status : String
  error_message : Option String
deriving DecidableEq

/-- `log_delivery` (app/scheduler/utils/logging.py lines 13-41).  The
INSERT+commit (`storage`) may raise; the surrounding `try/except Exception`
catches any storage failure and only logs it, so the call always returns
normally to the dispatch path. -/
def log_delivery (storage : DeliveryRecord → Except String Unit) (r : DeliveryRecord) :
    Except String Unit :=
  match storage r with
  | .ok u => .ok u
  | .error _ => .ok ()

/-- `log_broadcast_delivery` (app/admin/broadcast.py lines 71-88).  The
INSERT+commit runs under `try/finally` (which only closes the connection) with
no `except` clause, so a storage failure propagates to the caller. -/
def log_broadcast_delivery (storage : DeliveryRecord → Except String Unit)
    (r : DeliveryRecord) : Except String Unit :=
  storage r

/-- The `try`-block body of the per-user loop of `morning_schedule_job`
(morning_message.py lines 44-54): fetch today's pairs for the user's direction
(`getPairs`, may raise), format the schedule message, and send with retry
(`sendOk`; `send_message_with_retry` catches all exceptions and returns a
Bool, so it never raises).  An `.error e` is an exception escaping the block,
caught by the per-user `except`. -/
def morningBody (getPairs : Nat → Nat → Except String (List PairRow))
    (sendOk : Nat → String → Bool) (today : Nat) (u : User) : Except String Bool :=
  (getPairs u.direction_id today).map
    (fun pairs => sendOk u.tg_id (format_schedule_message pairs today u.name))

/-- The per-user loop of `morning_schedule_job` (lines 43-72): each recipient
yields exactly one delivery_log row — `sent` on success, `error` with detail
`Failed after retries` when the send returned False, and `error` with the
exception text when the body raised.  Returns `(records, successful, errors)`
with records in recipient order. -/
def morningLoop (getPairs : Nat → Nat → Except String (List PairRow))
    (sendOk : Nat → String → Bool) (today : Nat) :
    List User → List DeliveryRecord × Nat × Nat
  | [] => ([], 0, 0)
  | u :: rest =>
    let res := morningLoop getPairs sendOk today rest
    match morningBody getPairs sendOk today u with
    | .ok true => (⟨u.tg_id, "morning", "sent", none⟩ :: res.1, res.2.1 + 1, res.2.2)
    | .ok false =>
      (⟨u.tg_id, "morning", "error", some "Failed after retries"⟩ :: res.1,
       res.2.1, res.2.2 + 1)
    | .error e => (⟨u.tg_id, "morning", "error", some e⟩ :: res.1, res.2.1, res.2.2 + 1)

/-- `morning_schedule_job` (morning_message.py lines 17-83): select the active
users, then run the per-user loop. -/
def morning_schedule_job (getPairs : Nat → Nat → Except String (List PairRow))
    (sendOk : Nat → String → Bool) (today : Nat) (rows : List User) (now : Nat) :
    List DeliveryRecord × Nat × Nat :=
  morningLoop getPairs sendOk today (get_active_users rows now)

/-- The `try`-block body of the per-user loop of `reminder_job` (reminders.py
lines 53-93): fetch today's pairs, take the first pair whose start time equals
the slot's `start_time` (the `for ... break` scan), and if one exists format
and send the reminder.  `.ok none` is the skip case (no class at this slot). -/
def reminderBody (getPairs : Nat → Nat → Except String (List PairRow))
    (sendOk : Nat → String → Bool) (today : Nat) (start_time : String) (u : User) :
    Except String (Option Bool) :=
  (getPairs u.direction_id today).map (fun pairs =>
    match pairs.find? (fun pr => pr.2.1 == start_time) with
    | none => none
    | some pr => some (sendOk u.tg_id (format_reminder_message pr.1 pr.2.1 pr.2.2)))

/-- The per-user loop of `reminder_job` (lines 52-113): a skipped recipient
produces no delivery_log row; a matched recipient produces exactly one (`sent`
or `error`); a raised exception is caught and produces one `error` row.
Returns `(records, successful, errors, skipped)`. -/
def reminderLoop (getPairs : Nat → Nat → Except String (List PairRow))
    (sendOk : Nat → String → Bool) (today : Nat) (start_time : String) :
    List User → List DeliveryRecord × Nat × Nat × Nat
  | [] => ([], 0, 0, 0)
  | u :: rest =>
    let res := reminderLoop getPairs sendOk today start_time rest
    match reminderBody getPairs sendOk today start_time u with
    | .ok none => (res.1, res.2.1, res.2.2.1, res.2.2.2 + 1)
    | .ok (some true) =>
      (⟨u.tg_id, "reminder", "sent", none⟩ :: res.1, res.2.1 + 1, res.2.2.1, res.2.2.2)
    | .ok (some false) =>
      (⟨u.tg_id, "reminder", "error", some "Failed after retries"⟩ :: res.1,
       res.2.1, res.2.2.1 + 1, res.2.2.2)
    | .error e =>
      (⟨u.tg_id, "reminder", "error", some e⟩ :: res.1, res.2.1, res.2.2.1 + 1, res.2.2.2)

/-- `reminder_job` (reminders.py lines 18-124): select the active users, keep
those with reminders enabled (line 35), then run the per-user loop. -/
def reminder_job (getPairs : Nat → Nat → Except String (List PairRow))
    (sendOk : Nat → String → Bool) (today : Nat) (start_time : String)
    (rows : List User) (now : Nat) : List DeliveryRecord × Nat × Nat × Nat :=
  reminderLoop getPairs sendOk today start_time
    ((get_active_users rows now).filter (fun u => u.remind_before))

/-- Day-of-week (0 = Monday, as Python's `weekday()`) of a civil time given in
minutes from the Unix epoch of its own timezone; 1970-01-01 was a Thursday
(weekday 3).  Floor division handles instants before the epoch. -/
def weekdayOf (localMinutes : Int) : Int :=
  (localMinutes.fdiv 1440 + 3) % 7

/-- `today = datetime.now().weekday()` as executed by `morning_schedule_job`
line 37 and `reminder_job` line 44: `datetime.now()` is the naive server-local
clock, i.e. the UTC instant shifted by the server's UTC offset. -/
def datetime_now_weekday (utcMinutes serverOffsetMinutes : Int) : Int :=
  weekdayOf (utcMinutes + serverOffsetMinutes)

/-- The weekday of `get_current_time_msk()` (app/utils/timezone.py lines
17-24) under the configured `settings.TIMEZONE = "Europe/Moscow"`, fixed
UTC+3, i.e. +180 minutes. -/
def msk_weekday (utcMinutes : Int) : Int :=
  weekdayOf (utcMinutes + 180)

/-- The single delivery_log row the morning loop writes for one recipient,
as a function of that recipient's own outcome (morning_message.py
lines 56-72). -/
def morningRecord (getPairs : Nat → Nat → Except String (List PairRow))
    (sendOk : Nat → String → Bool) (today : Nat) (u : User) : DeliveryRecord :=
  match morningBody getPairs sendOk today u with
  | .ok true => ⟨u.tg_id, "morning", "sent", none⟩
  | .ok false => ⟨u.tg_id, "morning", "error", some "Failed after retries"⟩
  | .error e => ⟨u.tg_id, "morning", "error", some e⟩

/-- The zero or one delivery_log rows the reminder loop writes for one
recipient, as a function of that recipient's own outcome (reminders.py
lines 75-113): `none` in the skip case. -/
def reminderRecordOpt (getPairs : Nat → Nat → Except String (List PairRow))
    (sendOk : Nat → String → Bool) (today : Nat) (start_time : String) (u : User) :
    Option DeliveryRecord :=
  match reminderBody getPairs sendOk today start_time u with
  | .ok none => none
  | .ok (some true) => some ⟨u.tg_id, "reminder", "sent", none⟩
  | .ok (some false) => some ⟨u.tg_id, "reminder", "error", some "Failed after retries"⟩
  | .error e => some ⟨u.tg_id, "reminder", "error", some e⟩

/-- Example class used by concrete witnesses. -/
def exPair : Pair := ⟨"Матанализ", "Иванов", "101", "лекция", none⟩

/-- Example `(pair, start, end)` row starting at the 08:30 slot. -/
def exRow : PairRow := (exPair, "08:30", "10:00")

/-- Example recipient in direction 1 with reminders enabled, not paused. -/
def exUser1 : User := ⟨1, "Анна", 1, 1, true, none⟩

/-- Example recipient in direction 2 with reminders enabled, not paused. -/
def exUser2 : User := ⟨2, "Борис", 1, 2, true, none⟩

/-- Example recipient paused until timestamp 20. -/
def exPausedUser : User := ⟨9, "Пётр", 1, 1, true, some 20⟩

/-- Example recipient named "A" (row stored after [exUserB]). -/
def exUserA : User := ⟨1, "A", 1, 1, true, none⟩

/-- Example recipient named "B" (row stored before [exUserA]). -/
def exUserB : User := ⟨2, "B", 1, 1, true, none⟩

/-- Example schedule store: direction 1 has one class row, others none. -/
def exGetPairs : Nat → Nat → Except String (List PairRow) :=
  fun d _ => if d == 1 then Except.ok [exRow] else Except.ok []

/-- Example schedule store whose lookup always raises. -/
def exGetPairsFail : Nat → Nat → Except String (List PairRow) :=
  fun _ _ => Except.error "db down"

/-- Example send capability that always succeeds. -/
def exSendTrue : Nat → String → Bool := fun _ _ => true

theorem batches_nil (b : Nat) : batches b ([] : List α) = [] := by
  rw [batches]
  simp

theorem batches_cons (b : Nat) (l : List α) (hb : b ≠ 0) (hl : l ≠ []) :
    batches b l = l.take b :: batches b (l.drop b) := by
  rw [batches]
  simp [hb, hl]

theorem batchSendGo_nil (send : Nat → Option String) (b : Nat) :
    batchSendGo send b [] = (0, 0, 0) := by
  rw [batchSendGo]
  simp

theorem batchSendGo_cons (send : Nat → Option String) (b : Nat) (l : List Nat)
    (hb : b ≠ 0) (hl : l ≠ []) :
    batchSendGo send b l =
      ((((l.take b).filter (fun u => (send u).isNone)).length + (batchSendGo send b (l.drop b)).1),
       (((l.take b).filter (fun u => (send u).isSome)).length + (batchSendGo send b (l.drop b)).2.1),
       ((if (l.drop b).isEmpty then 0 else 1) + (batchSendGo send b (l.drop b)).2.2)) := by
  rw [batchSendGo]
  simp [hb, hl]

theorem batches_ne_nil (b : Nat) (l : List α) (hb : b ≠ 0) (hl : l ≠ []) :
    batches b l ≠ [] := by
  rw [batches_cons b l hb hl]
  simp

theorem batches_flatten (b : Nat) (hb : b ≠ 0) (l : List α) : (batches b l).flatten = l := by
  refine batches.induct b (fun t => (batches b t).flatten = t) ?_ ?_ l
  · intro x hx
    simp only [Bool.or_eq_true, beq_iff_eq, List.isEmpty_iff] at hx
    rcases hx with h | h
    · exact absurd h hb
    · subst h
      simp [batches_nil]
  · intro x hx ih
    simp only [Bool.or_eq_true, beq_iff_eq, List.isEmpty_iff, not_or] at hx
    rw [batches_cons b x hb hx.2, List.flatten_cons, ih]
    exact List.take_append_drop b x

theorem batches_length (b : Nat) (hb : b ≠ 0) (l : List α) :
    (batches b l).length = (l.length + b - 1) / b := by
  refine batches.induct b (fun t => (batches b t).length = (t.length + b - 1) / b) ?_ ?_ l
  · intro x hx
    simp only [Bool.or_eq_true, beq_iff_eq, List.isEmpty_iff] at hx
    rcases hx with h | h
    · exact absurd h hb
    · subst h
      have hlt : b - 1 < b := by omega
      simp [batches_nil, Nat.div_eq_of_lt hlt]
  · intro x hx ih
    simp only [Bool.or_eq_true, beq_iff_eq, List.isEmpty_iff, not_or] at hx
    rw [batches_cons b x hb hx.2]
    have hN : 0 < x.length := List.length_pos.mpr hx.2
    simp only [List.length_cons, ih, List.length_drop]
    by_cases hcase : x.length ≤ b
    · have e1 : (x.length - b + b - 1) / b = 0 := by
        have h0 : x.length - b = 0 := by omega
        rw [h0, Nat.zero_add]
        exact Nat.div_eq_of_lt (by omega)
      have e2 : (x.length + b - 1) / b = 1 :=
        Nat.div_eq_of_lt_le (by omega) (by omega)
      rw [e1, e2]
    · have heq : x.length + b - 1 = (x.length - b + b - 1) + b := by omega
      rw [heq, Nat.add_div_right _ (by omega : 0 < b)]

theorem batches_dropLast_size (b : Nat) (hb : b ≠ 0) (l : List α) :
    ∀ c ∈ (batches b l).dropLast, c.length = b := by
  refine batches.induct b (fun t => ∀ c ∈ (batches b t).dropLast, c.length = b) ?_ ?_ l
  · intro x hx
    simp only [Bool.or_eq_true, beq_iff_eq, List.isEmpty_iff] at hx
    rcases hx with h | h
    · exact absurd h hb
    · subst h
      simp [batches_nil]
  · intro x hx ih
    simp only [Bool.or_eq_true, beq_iff_eq, List.isEmpty_iff, not_or] at hx
    rw [batches_cons b x hb hx.2]
    by_cases hdrop : x.drop b = []
    · rw [hdrop, batches_nil]
      simp
    · have hne : batches b (x.drop b) ≠ [] := batches_ne_nil b _ hb hdrop
      obtain ⟨c, cs, hcs⟩ := List.exists_cons_of_ne_nil hne
      rw [hcs]
      intro z hz
      rw [List.dropLast_cons₂] at hz
      rcases List.mem_cons.mp hz with hz | hz
      · subst hz
        have hblt : b < x.length := by
          have : 0 < (x.drop b).length := List.length_pos.mpr hdrop
          simp only [List.length_drop] at this
          omega
        simp [List.length_take, Nat.min_eq_left (Nat.le_of_lt hblt)]
      · exact ih z (by rw [hcs]; exact hz)

theorem batches_size_le (b : Nat) (hb : b ≠ 0) (l : List α) :
    ∀ c ∈ batches b l, c.length ≤ b ∧ c ≠ [] := by
  refine batches.induct b (fun t => ∀ c ∈ batches b t, c.length ≤ b ∧ c ≠ []) ?_ ?_ l
  · intro x hx
    simp only [Bool.or_eq_true, beq_iff_eq, List.isEmpty_iff] at hx
    rcases hx with h | h
    · exact absurd h hb
    · subst h
      simp [batches_nil]
  · intro x hx ih
    simp only [Bool.or_eq_true, beq_iff_eq, List.isEmpty_iff, not_or] at hx
    rw [batches_cons b x hb hx.2]
    intro c hc
    rcases List.mem_cons.mp hc with hc | hc
    · subst hc
      constructor
      · simp [List.length_take]
      · simp only [ne_eq, List.take_eq_nil_iff]
        push_neg
        exact ⟨hb, hx.2⟩
    · exact ih c hc

theorem batchSendGo_sleeps (send : Nat → Option String) (b : Nat) (hb : b ≠ 0) (l : List Nat) :
    (batchSendGo send b l).2.2 = (batches b l).length - 1 := by
  refine batches.induct b (fun t => (batchSendGo send b t).2.2 = (batches b t).length - 1)
    ?_ ?_ l
  · intro x hx
    simp only [Bool.or_eq_true, beq_iff_eq, List.isEmpty_iff] at hx
    rcases hx with h | h
    · exact absurd h hb
    · subst h
      simp [batchSendGo_nil, batches_nil]
  · intro x hx ih
    simp only [Bool.or_eq_true, beq_iff_eq, List.isEmpty_iff, not_or] at hx
    rw [batchSendGo_cons send b x hb hx.2, batches_cons b x hb hx.2]
    by_cases hdrop : x.drop b = []
    · rw [hdrop, batchSendGo_nil, batches_nil]
      simp
    · have hne : batches b (x.drop b) ≠ [] := batches_ne_nil b _ hb hdrop
      have hpos : 0 < (batches b (x.drop b)).length := List.length_pos.mpr hne
      have hie : (x.drop b).isEmpty = false := by
        simp [List.isEmpty_iff, hdrop]
      simp only [hie, Bool.false_eq_true, if_false, ih, List.length_cons]
      omega

theorem filter_isNone_add_isSome (send : Nat → Option String) (l : List Nat) :
    (l.filter (fun u => (send u).isNone)).length +
      (l.filter (fun u => (send u).isSome)).length = l.length := by
  induction l with
  | nil => simp
  | cons u t ih =>
    cases h : send u <;> simp [List.filter_cons, h] <;> omega

theorem batchSendGo_counts (send : Nat → Option String) (b : Nat) (hb : b ≠ 0) (l : List Nat) :
    (batchSendGo send b l).1 = (l.filter (fun u => (send u).isNone)).length ∧
      (batchSendGo send b l).2.1 = (l.filter (fun u => (send u).isSome)).length := by
  refine batches.induct b
    (fun t => (batchSendGo send b t).1 = (t.filter (fun u => (send u).isNone)).length ∧
      (batchSendGo send b t).2.1 = (t.filter (fun u => (send u).isSome)).length) ?_ ?_ l
  · intro x hx
    simp only [Bool.or_eq_true, beq_iff_eq, List.isEmpty_iff] at hx
    rcases hx with h | h
    · exact absurd h hb
    · subst h
      simp [batchSendGo_nil]
  · intro x hx ih
    simp only [Bool.or_eq_true, beq_iff_eq, List.isEmpty_iff, not_or] at hx
    rw [batchSendGo_cons send b x hb hx.2]
    constructor
    · conv_rhs => rw [← List.take_append_drop b x]
      simp only [List.filter_append, List.length_append, ih.1]
    · conv_rhs => rw [← List.take_append_drop b x]
      simp only [List.filter_append, List.length_append, ih.2]

/-- C1: for every item list and batch size `B ≥ 1`, `batch_send` partitions the
items into `ceil(N/B)` sequential batches in list order (their concatenation is
the input), each full batch of size exactly `B`, every batch of size at most
`B` and nonempty, and the inter-batch delay is slept exactly `ceil(N/B) - 1`
times — between consecutive batches, never after the last. -/
theorem c1_batch_send_partition_delays (send : Nat → Option String) (l : List Nat) (b : Nat)
    (hb : 1 ≤ b) :
    (batches b l).flatten = l ∧
    (batches b l).length = (l.length + b - 1) / b ∧
    (∀ c ∈ (batches b l).dropLast, c.length = b) ∧
    (∀ c ∈ batches b l, c.length ≤ b ∧ c ≠ []) ∧
    (batch_send send l b).2.2 = (l.length + b - 1) / b - 1 := by
  have hb0 : b ≠ 0 := by omega
  refine ⟨batches_flatten b hb0 l, batches_length b hb0 l, batches_dropLast_size b hb0 l,
    batches_size_le b hb0 l, ?_⟩
  unfold batch_send
  rw [batchSendGo_sleeps send b hb0 l, batches_length b hb0 l]

/-- Witness for C1 at `user_ids = [1,2,3,4,5]`, `batch_size = 2`: three batches
`[1,2] [3,4] [5]` and exactly two inter-batch sleeps. -/
theorem c1_witness :
    (batches 2 [1, 2, 3, 4, 5]).flatten = [1, 2, 3, 4, 5] ∧
    (batches 2 [1, 2, 3, 4, 5]).length = 3 ∧
    (batch_send (fun _ => none) [1, 2, 3, 4, 5] 2).2.2 = 2 := by
  have h := c1_batch_send_partition_delays (fun _ => none) [1, 2, 3, 4, 5] 2 (by norm_num)
  exact ⟨h.1, by simpa using h.2.1, by simpa using h.2.2.2.2⟩

/-- C10: for every user list (including `[]`) and every send function,
`batch_send` returns `(successful, errors)` with `successful + errors` equal to
the input length; an item counts as an error exactly when its send raised
(its `message_func` result was an exception), and as a success otherwise. -/
theorem c10_batch_send_conservation (send : Nat → Option String) (l : List Nat) (b : Nat)
    (hb : 1 ≤ b) :
    (batch_send send l b).1 + (batch_send send l b).2.1 = l.length ∧
    (batch_send send l b).1 = (l.filter (fun u => (send u).isNone)).length ∧
    (batch_send send l b).2.1 = (l.filter (fun u => (send u).isSome)).length := by
  have hb0 : b ≠ 0 := by omega
  have hc := batchSendGo_counts send b hb0 l
  refine ⟨?_, hc.1, hc.2⟩
  unfold batch_send
  rw [hc.1, hc.2]
  exact filter_isNone_add_isSome send l

/-- Witness for C10: five users, sends for even ids raise: 3 successes plus
2 errors account for all 5 items. -/
theorem c10_witness :
    (batch_send (fun u => if u % 2 == 0 then some "boom" else none) [1, 2, 3, 4, 5] 2).1 +
      (batch_send (fun u => if u % 2 == 0 then some "boom" else none) [1, 2, 3, 4, 5] 2).2.1 = 5 ∧
    (batch_send (fun u => if u % 2 == 0 then some "boom" else none) [1, 2, 3, 4, 5] 2).2.1 = 2 := by
  have h := c10_batch_send_conservation (fun u => if u % 2 == 0 then some "boom" else none)
    [1, 2, 3, 4, 5] 2 (by norm_num)
  exact ⟨by simpa using h.1, by simpa using h.2.2⟩

theorem sendRetryFrom_success (send : Nat → SendResult) (maxRetries attempt : Nat)
    (h : send attempt = .success) :
    sendRetryFrom send maxRetries attempt = (true, 1) := by
  rw [sendRetryFrom, h]

theorem sendRetryFrom_other (send : Nat → SendResult) (maxRetries attempt : Nat) (m : String)
    (h : send attempt = .otherError m) :
    sendRetryFrom send maxRetries attempt = (false, 1) := by
  rw [sendRetryFrom, h]

theorem sendRetryFrom_api_retry (send : Nat → SendResult) (maxRetries attempt : Nat) (m : String)
    (h : send attempt = .apiError m) (hlt : attempt < maxRetries) :
    sendRetryFrom send maxRetries attempt =
      ((sendRetryFrom send maxRetries (attempt + 1)).1,
       (sendRetryFrom send maxRetries (attempt + 1)).2 + 1) := by
  rw [sendRetryFrom, h]
  simp [hlt]

theorem sendRetryFrom_api_last (send : Nat → SendResult) (maxRetries attempt : Nat) (m : String)
    (h : send attempt = .apiError m) (hge : ¬ attempt < maxRetries) :
    sendRetryFrom send maxRetries attempt = (false, 1) := by
  rw [sendRetryFrom, h]
  simp [hge]

theorem sendRetryFrom_transient_aux (send : Nat → SendResult) (maxRetries : Nat) :
    ∀ n attempt, maxRetries - attempt = n → attempt ≤ maxRetries →
    (∀ i, attempt ≤ i → i < maxRetries → ∃ m, send i = SendResult.apiError m) →
    send maxRetries = SendResult.success →
    sendRetryFrom send maxRetries attempt = (true, maxRetries + 1 - attempt) := by
  intro n
  induction n using Nat.strong_induction_on with
  | _ n ih =>
    intro attempt hn hle hfail hsucc
    rcases Nat.lt_or_ge attempt maxRetries with hlt | hge
    · obtain ⟨m, hm⟩ := hfail attempt le_rfl hlt
      rw [sendRetryFrom_api_retry send maxRetries attempt m hm hlt]
      have hrec := ih (maxRetries - (attempt + 1)) (by omega) (attempt + 1) rfl (by omega)
        (fun i h1 h2 => hfail i (by omega) h2) hsucc
      rw [hrec]
      simp only [Prod.mk.injEq, true_and]
      omega
    · have heq : attempt = maxRetries := by omega
      rw [heq, sendRetryFrom_success send maxRetries maxRetries hsucc]
      simp only [Prod.mk.injEq, true_and]
      omega

theorem sendRetryFrom_transient (send : Nat → SendResult) (maxRetries attempt : Nat)
    (hle : attempt ≤ maxRetries)
    (hfail : ∀ i, attempt ≤ i → i < maxRetries → ∃ m, send i = SendResult.apiError m)
    (hsucc : send maxRetries = SendResult.success) :
    sendRetryFrom send maxRetries attempt = (true, maxRetries + 1 - attempt) :=
  sendRetryFrom_transient_aux send maxRetries (maxRetries - attempt) attempt rfl hle hfail hsucc

/-- C2: if the capability fails with a provider API error on exactly the first
`maxRetries` attempts and succeeds on the next, `send_message_with_retry`
returns `True` (a `sent` outcome, so no `error` outcome) having invoked the
capability exactly `maxRetries + 1` times. -/
theorem c2_transient_retries_then_sent (send : Nat → SendResult) (maxRetries : Nat)
    (hfail : ∀ i, i < maxRetries → ∃ m, send i = SendResult.apiError m)
    (hsucc : send maxRetries = SendResult.success) :
    send_message_with_retry send maxRetries = (true, maxRetries + 1) := by
  have h := sendRetryFrom_transient send maxRetries 0 (by omega)
    (fun i _ h2 => hfail i h2) hsucc
  unfold send_message_with_retry
  rw [h, Nat.sub_zero]

/-- Witness for C2 with `maxRetries = 2`: two transient failures and a success
on the third call give `(True, 3)`. -/
theorem c2_witness :
    send_message_with_retry
      (fun i => if i < 2 then SendResult.apiError "flood" else SendResult.success) 2 = (true, 3) :=
  c2_transient_retries_then_sent _ 2
    (fun i hi => ⟨"flood", by simp [hi]⟩) (by norm_num)

/-- C6: on a fatal (non-`TelegramAPIError`) provider error on the first
attempt, `send_message_with_retry` returns `False` (reported as an `error`
outcome) immediately, having invoked the capability exactly once — no retry,
for any configured `maxRetries`. -/
theorem c6_fatal_error_single_attempt (send : Nat → SendResult) (maxRetries : Nat) (m : String)
    (h : send 0 = SendResult.otherError m) :
    send_message_with_retry send maxRetries = (false, 1) := by
  unfold send_message_with_retry
  exact sendRetryFrom_other send maxRetries 0 m h

/-- Witness for C6: a permanently blocked recipient (non-API exception) with
`maxRetries = 5` yields `(False, 1)`: one attempt, no retry. -/
theorem c6_witness :
    send_message_with_retry (fun _ => SendResult.otherError "blocked") 5 = (false, 1) :=
  c6_fatal_error_single_attempt _ 5 "blocked" rfl

theorem mem_get_active_users {rows : List User} {now : Nat} {u : User} :
    u ∈ get_active_users rows now ↔ u ∈ rows ∧ isActive now u = true := by
  unfold get_active_users
  exact List.mem_filter

theorem morningLoop_records (getPairs : Nat → Nat → Except String (List PairRow))
    (sendOk : Nat → String → Bool) (today : Nat) (us : List User) :
    (morningLoop getPairs sendOk today us).1 =
      us.map (morningRecord getPairs sendOk today) := by
  induction us with
  | nil => rfl
  | cons u rest ih =>
    simp only [morningLoop, List.map_cons]
    cases hb : morningBody getPairs sendOk today u with
    | ok b => cases b <;> simp [morningRecord, hb, ih]
    | error e => simp [morningRecord, hb, ih]

theorem morningRecord_user_id (getPairs : Nat → Nat → Except String (List PairRow))
    (sendOk : Nat → String → Bool) (today : Nat) (u : User) :
    (morningRecord getPairs sendOk today u).user_id = u.tg_id := by
  unfold morningRecord
  cases hb : morningBody getPairs sendOk today u with
  | ok b => cases b <;> rfl
  | error e => rfl

theorem reminderLoop_records (getPairs : Nat → Nat → Except String (List PairRow))
    (sendOk : Nat → String → Bool) (today : Nat) (start_time : String) (us : List User) :
    (reminderLoop getPairs sendOk today start_time us).1 =
      us.filterMap (reminderRecordOpt getPairs sendOk today start_time) := by
  induction us with
  | nil => rfl
  | cons u rest ih =>
    simp only [reminderLoop, List.filterMap_cons]
    cases hb : reminderBody getPairs sendOk today start_time u with
    | ok ob =>
      cases ob with
      | none => simp [reminderRecordOpt, hb, ih]
      | some b => cases b <;> simp [reminderRecordOpt, hb, ih]
    | error e => simp [reminderRecordOpt, hb, ih]

theorem reminderRecordOpt_user_id (getPairs : Nat → Nat → Except String (List PairRow))
    (sendOk : Nat → String → Bool) (today : Nat) (start_time : String) (v : User)
    (r : DeliveryRecord)
    (h : reminderRecordOpt getPairs sendOk today start_time v = some r) :
    r.user_id = v.tg_id := by
  unfold reminderRecordOpt at h
  cases hb : reminderBody getPairs sendOk today start_time v with
  | ok ob =>
    cases ob with
    | none => rw [hb] at h; cases h
    | some b => cases b <;> (rw [hb] at h; cases h; rfl)
  | error e => rw [hb] at h; cases h; rfl

theorem filterMap_filter_user (f : User → Option DeliveryRecord) (us : List User) (u : User)
    (huid : ∀ v r, f v = some r → r.user_id = v.tg_id)
    (hu : u ∈ us) (hnd : (us.map User.tg_id).Nodup) :
    (us.filterMap f).filter (fun r => r.user_id == u.tg_id) = (f u).toList := by
  induction us with
  | nil => cases hu
  | cons v rest ih =>
    rw [List.map_cons, List.nodup_cons] at hnd
    obtain ⟨hhead, hnd2⟩ := hnd
    rcases List.mem_cons.mp hu with rfl | hmem
    · have hrestnil : (rest.filterMap f).filter (fun r => r.user_id == u.tg_id) = [] := by
        rw [List.filter_eq_nil_iff]
        intro r hr
        obtain ⟨w, hw, hfw⟩ := List.mem_filterMap.mp hr
        have hid : r.user_id = w.tg_id := huid w r hfw
        have hne : w.tg_id ≠ u.tg_id := by
          intro hcontra
          exact hhead (hcontra ▸ List.mem_map_of_mem User.tg_id hw)
        simp [hid, hne]
      cases hf : f u with
      | none => simp [List.filterMap_cons, hf, hrestnil]
      | some r =>
        have hru : r.user_id = u.tg_id := huid u r hf
        simp [List.filterMap_cons, hf, List.filter_cons, hru, hrestnil]
    · have hvne : v.tg_id ≠ u.tg_id := by
        intro hcontra
        exact hhead (hcontra ▸ List.mem_map_of_mem User.tg_id hmem)
      cases hf : f v with
      | none =>
        simp only [List.filterMap_cons, hf]
        exact ih hmem hnd2
      | some r =>
        have hrv : r.user_id = v.tg_id := huid v r hf
        simp only [List.filterMap_cons, hf, List.filter_cons, hrv, beq_iff_eq, hvne,
          if_false]
        exact ih hmem hnd2

/-- C3: in a digest or reminder run over any recipient list, if one recipient's
processing raises, the exception is caught, exactly the one `error` record for
that recipient is written at its position, and the records of every preceding
and remaining recipient are exactly those of their own runs — the failure
neither aborts the run nor changes other recipients' outcomes. -/
theorem c3_recipient_failure_isolated (getPairs : Nat → Nat → Except String (List PairRow))
    (sendOk : Nat → String → Bool) (today : Nat) (start_time : String)
    (pre post : List User) (u : User) (em er : String)
    (hm : morningBody getPairs sendOk today u = Except.error em)
    (hr : reminderBody getPairs sendOk today start_time u = Except.error er) :
    (morningLoop getPairs sendOk today (pre ++ u :: post)).1 =
      (morningLoop getPairs sendOk today pre).1 ++
        ⟨u.tg_id, "morning", "error", some em⟩ ::
          (morningLoop getPairs sendOk today post).1 ∧
    (reminderLoop getPairs sendOk today start_time (pre ++ u :: post)).1 =
      (reminderLoop getPairs sendOk today start_time pre).1 ++
        ⟨u.tg_id, "reminder", "error", some er⟩ ::
          (reminderLoop getPairs sendOk today start_time post).1 := by
  constructor
  · rw [morningLoop_records, morningLoop_records, morningLoop_records, List.map_append,
      List.map_cons]
    have hrec : morningRecord getPairs sendOk today u =
        ⟨u.tg_id, "morning", "error", some em⟩ := by
      unfold morningRecord
      rw [hm]
    rw [hrec]
  · rw [reminderLoop_records, reminderLoop_records, reminderLoop_records,
      List.filterMap_append, List.filterMap_cons]
    have hrec : reminderRecordOpt getPairs sendOk today start_time u =
        some ⟨u.tg_id, "reminder", "error", some er⟩ := by
      unfold reminderRecordOpt
      rw [hr]
    rw [hrec]

/-- Witness for C3: a schedule store that raises `db down` for recipient 1
while recipient 2 follows; both runs record the one error and continue. -/
theorem c3_witness :
    (morningLoop exGetPairsFail exSendTrue 0 ([] ++ exUser1 :: [exUser2])).1 =
      (morningLoop exGetPairsFail exSendTrue 0 []).1 ++
        ⟨1, "morning", "error", some "db down"⟩ ::
          (morningLoop exGetPairsFail exSendTrue 0 [exUser2]).1 ∧
    (reminderLoop exGetPairsFail exSendTrue 0 "08:30" ([] ++ exUser1 :: [exUser2])).1 =
      (reminderLoop exGetPairsFail exSendTrue 0 "08:30" []).1 ++
        ⟨1, "reminder", "error", some "db down"⟩ ::
          (reminderLoop exGetPairsFail exSendTrue 0 "08:30" [exUser2]).1 :=
  c3_recipient_failure_isolated exGetPairsFail exSendTrue 0 "08:30" [] [exUser2] exUser1
    "db down" "db down" rfl rfl

/-- C4: a recipient whose pause-until is non-null and strictly in the future is
excluded by `get_active_users`, and (given distinct recipient ids in the store)
neither the digest run nor the reminder run creates any delivery record for
them. -/
theorem c4_paused_recipient_excluded (getPairs : Nat → Nat → Except String (List PairRow))
    (sendOk : Nat → String → Bool) (today : Nat) (start_time : String)
    (rows : List User) (now : Nat) (u : User) (t : Nat)
    (hmem : u ∈ rows) (hp : u.paused_until = some t) (hfut : now < t)
    (hnd : (rows.map User.tg_id).Nodup) :
    u ∉ get_active_users rows now ∧
    (∀ r ∈ (morning_schedule_job getPairs sendOk today rows now).1, r.user_id ≠ u.tg_id) ∧
    (∀ r ∈ (reminder_job getPairs sendOk today start_time rows now).1,
      r.user_id ≠ u.tg_id) := by
  have hnotactive : isActive now u = false := by
    unfold isActive
    rw [hp]
    simp only [decide_eq_false_iff_not]
    omega
  have hnotin : u ∉ get_active_users rows now := by
    intro hmemact
    have h := (mem_get_active_users.mp hmemact).2
    rw [hnotactive] at h
    exact Bool.false_ne_true h
  refine ⟨hnotin, ?_, ?_⟩
  · intro r hrec
    rw [morning_schedule_job, morningLoop_records] at hrec
    obtain ⟨v, hv, rfl⟩ := List.mem_map.mp hrec
    rw [morningRecord_user_id]
    intro hcontra
    have hvrows : v ∈ rows := (mem_get_active_users.mp hv).1
    have hveq : v = u := List.inj_on_of_nodup_map hnd hvrows hmem hcontra
    exact hnotin (hveq ▸ hv)
  · intro r hrec
    rw [reminder_job, reminderLoop_records] at hrec
    obtain ⟨v, hv, hfv⟩ := List.mem_filterMap.mp hrec
    rw [reminderRecordOpt_user_id getPairs sendOk today start_time v r hfv]
    intro hcontra
    have hvact : v ∈ get_active_users rows now := (List.mem_filter.mp hv).1
    have hvrows : v ∈ rows := (mem_get_active_users.mp hvact).1
    have hveq : v = u := List.inj_on_of_nodup_map hnd hvrows hmem hcontra
    exact hnotin (hveq ▸ hvact)

/-- Witness for C4: a recipient paused until 20 at current time 10 is not
selected. -/
theorem c4_witness : exPausedUser ∉ get_active_users [exPausedUser, exUser1] 10 :=
  (c4_paused_recipient_excluded exGetPairs exSendTrue 0 "08:30" [exPausedUser, exUser1] 10
    exPausedUser 20 (List.mem_cons_self _ _) rfl (by omega) (by decide)).1

/-- C5: in a reminder firing for a slot, an eligible recipient with a class
starting exactly at the slot's start time (with the send capability
succeeding) gets exactly one delivery record, a `sent` reminder; a recipient
with no class starting at that slot gets zero delivery records. -/
theorem c5_reminder_slot_matching (getPairs : Nat → Nat → Except String (List PairRow))
    (sendOk : Nat → String → Bool) (today : Nat) (start_time : String)
    (rows : List User) (now : Nat) (u : User) (prs : List PairRow)
    (hu : u ∈ (get_active_users rows now).filter (fun v => v.remind_before))
    (hnd : (((get_active_users rows now).filter (fun v => v.remind_before)).map
      User.tg_id).Nodup)
    (hp : getPairs u.direction_id today = Except.ok prs) :
    ((∃ pr ∈ prs, pr.2.1 = start_time) → (∀ uid m, sendOk uid m = true) →
      (reminder_job getPairs sendOk today start_time rows now).1.filter
        (fun r => r.user_id == u.tg_id) = [⟨u.tg_id, "reminder", "sent", none⟩]) ∧
    ((∀ pr ∈ prs, pr.2.1 ≠ start_time) →
      (reminder_job getPairs sendOk today start_time rows now).1.filter
        (fun r => r.user_id == u.tg_id) = []) := by
  have hchar : (reminder_job getPairs sendOk today start_time rows now).1.filter
      (fun r => r.user_id == u.tg_id) =
      (reminderRecordOpt getPairs sendOk today start_time u).toList := by
    rw [reminder_job, reminderLoop_records]
    exact filterMap_filter_user _ _ u
      (fun v r => reminderRecordOpt_user_id getPairs sendOk today start_time v r) hu hnd
  constructor
  · rintro ⟨pr0, hpr0, hst⟩ hsend
    have hsome : (prs.find? (fun pr => pr.2.1 == start_time)).isSome = true := by
      rw [List.find?_isSome]
      exact ⟨pr0, hpr0, by simp [hst]⟩
    obtain ⟨pr1, hpr1⟩ := Option.isSome_iff_exists.mp hsome
    have hbody : reminderBody getPairs sendOk today start_time u =
        Except.ok (some true) := by
      unfold reminderBody
      rw [hp]
      simp [Except.map, hpr1, hsend]
    rw [hchar]
    unfold reminderRecordOpt
    rw [hbody]
    rfl
  · intro hnone
    have hfind : prs.find? (fun pr => pr.2.1 == start_time) = none := by
      rw [List.find?_eq_none]
      intro x hx
      simp only [beq_iff_eq]
      exact hnone x hx
    have hbody : reminderBody getPairs sendOk today start_time u = Except.ok none := by
      unfold reminderBody
      rw [hp]
      simp [Except.map, hfind]
    rw [hchar]
    unfold reminderRecordOpt
    rw [hbody]
    rfl

/-- Witness for C5: recipient 1 has a class at the 08:30 slot and gets exactly
one `sent` record; recipient 2 has no class at that slot and gets none. -/
theorem c5_witness :
    (reminder_job exGetPairs exSendTrue 0 "08:30" [exUser1, exUser2] 10).1.filter
      (fun r => r.user_id == (1 : Nat)) = [⟨1, "reminder", "sent", none⟩] ∧
    (reminder_job exGetPairs exSendTrue 0 "08:30" [exUser1, exUser2] 10).1.filter
      (fun r => r.user_id == (2 : Nat)) = [] := by
  have h1 := c5_reminder_slot_matching exGetPairs exSendTrue 0 "08:30" [exUser1, exUser2]
    10 exUser1 [exRow] (by decide) (by decide) rfl
  have h2 := c5_reminder_slot_matching exGetPairs exSendTrue 0 "08:30" [exUser1, exUser2]
    10 exUser2 [] (by decide) (by decide) rfl
  exact ⟨h1.1 ⟨exRow, by simp, rfl⟩ (fun _ _ => rfl), h2.2 (by simp)⟩

/-- C7 counterexample: the broadcast path's ledger write has no `except`
clause, so a storage failure propagates into the broadcast dispatch path,
refuting "a ledger write never raises into the dispatch path". -/
theorem c7_counterexample :
    log_broadcast_delivery (fun _ => Except.error "disk full")
      ⟨7, "broadcast", "sent", none⟩ = Except.error "disk full" := rfl

/-- C7 amended: the scheduler's `log_delivery` never raises into the dispatch
path — any storage failure is caught and only logged — but the broadcast
path's `log_broadcast_delivery` returns its storage outcome unchanged,
propagating storage failures to its caller. -/
theorem c7_amended_ledger_writes (storage : DeliveryRecord → Except String Unit)
    (r : DeliveryRecord) :
    log_delivery storage r = Except.ok () ∧
    log_broadcast_delivery storage r = storage r := by
  constructor
  · unfold log_delivery
    cases h : storage r with
    | ok u => rfl
    | error e => rfl
  · rfl

/-- C8 fails on the code: the jobs compute `today` with the naive server-local
`datetime.now().weekday()`, not with the configured-timezone clock
(`get_current_time_msk`).  At UTC instant 1970-01-01 00:30 (minute 30), a
UTC-1 server selects weekday 2 (Wednesday) while the configured Moscow clock
gives weekday 3 (Thursday); two server timezones disagree at the same
instant. -/
theorem c8_weekday_server_local_bug :
    datetime_now_weekday 30 (-60) = 2 ∧
    msk_weekday 30 = 3 ∧
    datetime_now_weekday 30 (-60) ≠ msk_weekday 30 ∧
    datetime_now_weekday 30 180 = msk_weekday 30 ∧
    datetime_now_weekday 30 (-60) ≠ datetime_now_weekday 30 180 := by decide

/-- C9 counterexample: `get_active_users` has no ORDER BY — with rows stored
as [exUserB, exUserA] (names "B" then "A", both unpaused) it returns them in
row order, which is not sorted by name. -/
theorem c9_counterexample :
    get_active_users [exUserB, exUserA] 0 = [exUserB, exUserA] ∧
    ¬ List.Sorted (fun u v : User => u.name ≤ v.name)
      (get_active_users [exUserB, exUserA] 0) := by
  refine ⟨rfl, ?_⟩
  intro hsorted
  rw [show get_active_users [exUserB, exUserA] 0 = [exUserB, exUserA] from rfl] at hsorted
  have hle : exUserB.name ≤ exUserA.name :=
    (List.pairwise_cons.mp hsorted).1 exUserA (List.mem_singleton.mpr rfl)
  have hnot : ¬ (("B" : String) ≤ "A") := by
    rw [String.le_iff_toList_le]
    decide
  exact hnot hle

/-- C9 amended: `get_active_users` returns exactly the non-paused recipients,
as an order-preserving sublist of the store's rows (deterministic in the store
state); it applies no sorting by name. -/
theorem c9_amended_selector_row_order (rows : List User) (now : Nat) :
    (get_active_users rows now).Sublist rows ∧
    ∀ u, u ∈ get_active_users rows now ↔ u ∈ rows ∧ isActive now u = true := by
  constructor
  · exact List.filter_sublist rows
  · intro u
    exact mem_get_active_users

end AGU
